import Mathlib

/-!
Verification of the af_unix Unix-domain socket library (src/lib.rs).

This file gives a shallow embedding of the library: the platform
constants it uses, the EINTR retry wrapper `retry`, the address codec
`addr_to_sockaddr_un`, the socket factory functions (`unix_socket`,
the free `connect` and `bind`, embedded as `connectFd` and `bindFd`),
and the `UnixDatagram` endpoint with its `connect`, `bind`, `recv`,
`recvfrom`, `send` and `sendto` operations.

OS interaction is modelled by an oracle: a `Sys` state holding the
current C errno value, a script of responses for the successive raw
syscalls (return value, errno after the call, bytes the kernel writes
into the caller buffer), and a trace of the syscalls issued so far.
Paths and buffers are byte lists (`List Nat`, each element a byte
value below 256); machine integers are `Int` with the relevant casts
made explicit (`i8ofU8`, `usizeOfInt`).
-/

/-! ## Platform constants (Linux values, as used through the libc crate) -/

/-- The libc EINTR error number (Linux: 4). -/
def EINTR : Int := 4

/-- The libc AF_UNIX address-family constant (Linux: 1). -/
def AF_UNIX : Int := 1

/-- The libc SOCK_STREAM type constant (Linux: 1). -/
def SOCK_STREAM : Int := 1

/-- The libc SOCK_DGRAM type constant (Linux: 2). -/
def SOCK_DGRAM : Int := 2

/-- Size in bytes of the libc type sa_family_t (the family tag). -/
def saFamilySize : Nat := 2

/-- Length of the sun_path field of the libc type sockaddr_un (Linux: 108). -/
def sunPathLen : Nat := 108

/-! ## Machine-integer casts -/

/-- Embedding of the Rust cast from u8 to i8 (the `*value as i8` in the
address codec copy loop): reinterpret a byte as a signed 8-bit value. -/
def i8ofU8 (b : Nat) : Int :=
  if b % 256 < 128 then ((b % 256 : Nat) : Int) else ((b % 256 : Nat) : Int) - 256

/-- Reinterpretation of a signed 8-bit value back as a byte, used to state
that the copy in the address codec keeps the bit pattern of each byte. -/
def u8ofI8 (x : Int) : Nat := (x % 256).toNat

/-- Embedding of the Rust cast from c_int to usize (the `n as usize` in the
short-send checks), on a 64-bit platform. -/
def usizeOfInt (n : Int) : Nat := (n % (18446744073709551616 : Int)).toNat

/-! ## Errors -/

/-- Embedding of std::io::Error, restricted to the two shapes this library
produces: an InvalidInput error with its message, and an OS error carrying
the platform errno value observed by last_error(). -/
inductive IOErr where
  | invalidInput (msg : String)
  | osError (code : Int)
deriving Repr, DecidableEq

/-! ## The retry wrapper -/

/-- Embedding of `retry` from src/lib.rs.  The source reads errno at the
top of each loop iteration, BEFORE invoking the operation:

  loop {
      let Errno(err) = errno();
      match f() {
          -1 if err == libc::EINTR => {}
          n => return n,
      }
  }

The abstract operation `op` maps the call number `k` (starting at 0) to
the pair (return value of the k-th call, errno value the k-th call leaves
behind); `errno` is the value the loop reads at the top of the current
iteration, and `fuel` bounds the otherwise unbounded loop (`none` means
the fuel ran out).  On return, the second component is the index of the
call whose value is returned, i.e. the number of retries performed. -/
def retry (op : Nat → Int × Int) : Nat → Nat → Int → Option (Int × Nat)
  | 0, _, _ => none
  | fuel + 1, k, errno =>
    if (op k).1 = -1 ∧ errno = EINTR then retry op fuel (k + 1) (op k).2
    else some ((op k).1, k)

/-- Modelled from the spec: the retry wrapper as section 4.2 specifies it,
where the errno compared against EINTR is the one observed atomically with
the return value of the very call that produced it ("the error state must
be read atomically with the syscall's return").  This definition exists
only to exhibit the divergence of the source `retry`, which reads errno
before the call, from the specified behaviour. -/
def retrySpec (op : Nat → Int × Int) : Nat → Nat → Option (Int × Nat)
  | 0, _ => none
  | fuel + 1, k =>
    if (op k).1 = -1 ∧ (op k).2 = EINTR then retrySpec op fuel (k + 1)
    else some ((op k).1, k)

/-- The syscall stub of the spec scenario: the first two calls fail,
returning -1 and setting errno to EINTR; every later call succeeds,
returning `good` (success does not modify errno). -/
def eintrStub (good : Int) (k : Nat) : Int × Int :=
  if k < 2 then (-1, EINTR) else (good, EINTR)

/-! ## The OS oracle -/

/-- The raw syscalls the library issues, as recorded in the trace. -/
inductive SyscallEv where
  | socket
  | connectSys
  | bindSys
  | recvSys
  | recvfromSys
  | sendSys
  | sendtoSys
deriving Repr, DecidableEq

/-- Oracle state for OS interaction: the current errno value, the scripted
responses for the successive raw syscalls (return value, errno after the
call, bytes the kernel writes into the caller buffer), and the trace of
syscalls issued so far.  An exhausted script answers -1 and leaves errno
unchanged; the theorems below either pin the script concretely or take the
retry wrapper's outcome as a hypothesis, so this convention never matters. -/
structure Sys where
  errno : Int
  script : List (Int × Int × List Nat)
  trace : List SyscallEv
deriving Repr, DecidableEq

/-- Issue one raw syscall: consume the next scripted response, update
errno, and append the event to the trace.  The first component of the
result is the pair (return value, bytes the kernel wrote). -/
def rawSyscall (ev : SyscallEv) (s : Sys) : (Int × List Nat) × Sys :=
  match s.script with
  | [] => ((-1, []), { s with trace := s.trace ++ [ev] })
  | (r, e, d) :: rest =>
      ((r, d), { errno := e, script := rest, trace := s.trace ++ [ev] })

/-- The retry wrapper applied to a raw syscall acting on the oracle state.
Same structure as `retry`: the errno compared against EINTR is `s.errno`,
the value current at the top of the iteration, read before the call is
issued.  A `none` first component means the fuel ran out while retrying. -/
def retrySys (ev : SyscallEv) : Nat → Sys → Option (Int × List Nat) × Sys
  | 0, s => (none, s)
  | fuel + 1, s =>
    if ((rawSyscall ev s).1).1 = -1 ∧ s.errno = EINTR then
      retrySys ev fuel (rawSyscall ev s).2
    else (some (rawSyscall ev s).1, (rawSyscall ev s).2)

/-! ## Address codec -/

/-- Embedding of CString::new: fails with the std NulError-derived
InvalidInput io error when the byte string contains a NUL byte, and
otherwise yields the bytes unchanged (without a trailing NUL). -/
def cstringNew (bytes : List Nat) : Except IOErr (List Nat) :=
  if 0 ∈ bytes then .error (.invalidInput "data provided contains a nul byte")
  else .ok bytes

/-- Embedding of the copy loop of the address codec,

  for (slot, value) in s.sun_path.iter_mut().zip(addr.as_bytes().iter()) {
      *slot = *value as i8;
  }

which overwrites a prefix of `dst` with the i8 cast of the bytes of
`src`, stopping when either list is exhausted and leaving the rest of
`dst` unchanged. -/
def copyInto : List Int → List Nat → List Int
  | [], _ => []
  | ds, [] => ds
  | _ :: ds, v :: vs => i8ofU8 v :: copyInto ds vs

/-- The sockaddr_un view of the zero-initialised sockaddr_storage
buffer: the family tag plus the 108-byte sun_path field, whose slots
are i8 values. -/
structure SockaddrUn where
  sun_family : Int
  sun_path : List Int
deriving Repr, DecidableEq

/-- Embedding of `addr_to_sockaddr_un` from src/lib.rs: starting from a
zero-initialised buffer, reject a path longer than sun_path.len() - 1
with InvalidInput, otherwise write the AF_UNIX family tag, copy the path
bytes, and return the buffer together with the effective length
size_of::<sa_family_t>() + len + 1 (the + 1 counting the NUL terminator
left by the zero initialisation). -/
def addr_to_sockaddr_un (addr : List Nat) : Except IOErr (SockaddrUn × Nat) :=
  let len := addr.length
  if len > sunPathLen - 1 then
    .error (.invalidInput "path must be smaller than SUN_LEN")
  else
    .ok ({ sun_family := AF_UNIX,
           sun_path := copyInto (List.replicate sunPathLen 0) addr },
         saFamilySize + len + 1)

/-! ## Socket factory -/

/-- Embedding of `unix_socket` from src/lib.rs: libc::socket(AF_UNIX, ty, 0),
with a -1 return mapped to the OS error read by last_error(). -/
def unix_socket (ty : Int) (s : Sys) : Except IOErr Int × Sys :=
  if ((rawSyscall .socket s).1).1 = -1 then
    (.error (.osError ((rawSyscall .socket s).2).errno), (rawSyscall .socket s).2)
  else (.ok ((rawSyscall .socket s).1).1, (rawSyscall .socket s).2)

/-- Embedding of the free function `connect` from src/lib.rs (named
`connectFd` here only because the method `UnixDatagram.connect` below
shares the short name): encode the address, open the socket, then the
retry-wrapped libc::connect; -1 maps to the OS error. -/
def connectFd (addr : List Nat) (ty : Int) (fuel : Nat) (s : Sys) :
    Option (Except IOErr Int) × Sys :=
  match addr_to_sockaddr_un addr with
  | .error e => (some (.error e), s)
  | .ok _ =>
    match unix_socket ty s with
    | (.error e, s1) => (some (.error e), s1)
    | (.ok fd, s1) =>
      match retrySys .connectSys fuel s1 with
      | (none, s2) => (none, s2)
      | (some (ret, _), s2) =>
        if ret = -1 then (some (.error (.osError s2.errno)), s2)
        else (some (.ok fd), s2)

/-- Embedding of the free function `bind` from src/lib.rs (named `bindFd`,
see `connectFd`): encode the address, open the socket, then a single,
non-retried libc::bind; -1 maps to the OS error. -/
def bindFd (addr : List Nat) (ty : Int) (s : Sys) : Except IOErr Int × Sys :=
  match addr_to_sockaddr_un addr with
  | .error e => (.error e, s)
  | .ok _ =>
    match unix_socket ty s with
    | (.error e, s1) => (.error e, s1)
    | (.ok fd, s1) =>
      if ((rawSyscall .bindSys s1).1).1 = -1 then
        (.error (.osError ((rawSyscall .bindSys s1).2).errno), (rawSyscall .bindSys s1).2)
      else (.ok fd, (rawSyscall .bindSys s1).2)

/-! ## The UnixDatagram endpoint -/

/-- Embedding of the `SockType` enumeration from src/lib.rs. -/
inductive SockType where
  | stream
  | dgram
  | seqpacket
deriving Repr, DecidableEq

/-- Embedding of the `match ty` mapping to platform type constants that
appears in both `UnixDatagram::connect` and `UnixDatagram::bind`
(`Seqpacket => 5 // FIXME`, the placeholder constant of the source). -/
def SockType.toC : SockType → Int
  | .stream => SOCK_STREAM
  | .dgram => SOCK_DGRAM
  | .seqpacket => 5

/-- Embedding of the `UnixDatagram` endpoint: the raw file descriptor
plus the connection-mode flag. -/
structure UnixDatagram where
  fd : Int
  connected : Bool
deriving Repr, DecidableEq

/-- Embedding of `UnixDatagram::connect`: CString conversion, then the
free connect, then construction of the endpoint with connected = true. -/
def UnixDatagram.connect (addr : List Nat) (ty : SockType) (fuel : Nat) (s : Sys) :
    Option (Except IOErr UnixDatagram) × Sys :=
  match cstringNew addr with
  | .error e => (some (.error e), s)
  | .ok c_addr =>
    match connectFd c_addr ty.toC fuel s with
    | (none, s1) => (none, s1)
    | (some (.error e), s1) => (some (.error e), s1)
    | (some (.ok fd), s1) => (some (.ok { fd := fd, connected := true }), s1)

/-- Embedding of `UnixDatagram::bind`: CString conversion, then the free
bind, then construction of the endpoint with connected = false. -/
def UnixDatagram.bind (addr : List Nat) (ty : SockType) (s : Sys) :
    Except IOErr UnixDatagram × Sys :=
  match cstringNew addr with
  | .error e => (.error e, s)
  | .ok c_addr =>
    match bindFd c_addr ty.toC s with
    | (.error e, s1) => (.error e, s1)
    | (.ok fd, s1) => (.ok { fd := fd, connected := false }, s1)

/-- Kernel write into the caller buffer on a receive: the delivered bytes
overwrite a prefix of `buf`; the buffer's length never changes. -/
def overwrite (buf data : List Nat) : List Nat :=
  data.take buf.length ++ buf.drop (data.take buf.length).length

/-- Embedding of `UnixDatagram::recv`: the connected-flag gate, then the
retry-wrapped libc::recv; a negative result maps to the OS error,
otherwise the byte count is returned (cast to usize).  The possibly
rewritten buffer and the endpoint are threaded through the result,
mirroring the &mut [u8] and &mut self of the source (whose body never
assigns to the endpoint's fields). -/
def UnixDatagram.recv (d : UnixDatagram) (buf : List Nat) (fuel : Nat) (s : Sys) :
    Option (Except IOErr Nat) × List Nat × UnixDatagram × Sys :=
  if !d.connected then
    (some (.error (.invalidInput "must call connect() before calling recv()")), buf, d, s)
  else
    match retrySys .recvSys fuel s with
    | (none, s1) => (none, buf, d, s1)
    | (some (ret, data), s1) =>
      if ret < 0 then (some (.error (.osError s1.errno)), overwrite buf data, d, s1)
      else (some (.ok (usizeOfInt ret)), overwrite buf data, d, s1)

/-- Embedding of `UnixDatagram::recvfrom`: no connected-flag gate; the
sender address is decoded by the kernel into zero-initialised scratch
storage that the function never returns (the result type carries only
the byte count); a negative result maps to the OS error. -/
def UnixDatagram.recvfrom (d : UnixDatagram) (buf : List Nat) (fuel : Nat) (s : Sys) :
    Option (Except IOErr Nat) × List Nat × UnixDatagram × Sys :=
  match retrySys .recvfromSys fuel s with
  | (none, s1) => (none, buf, d, s1)
  | (some (ret, data), s1) =>
    if ret < 0 then (some (.error (.osError s1.errno)), overwrite buf data, d, s1)
    else (some (.ok (usizeOfInt ret)), overwrite buf data, d, s1)

/-- Embedding of `UnixDatagram::send`: the connected-flag gate, then the
retry-wrapped libc::send; -1 maps to the OS error, and a byte count whose
usize cast differs from buf.len() to the short-send InvalidInput error. -/
def UnixDatagram.send (d : UnixDatagram) (buf : List Nat) (fuel : Nat) (s : Sys) :
    Option (Except IOErr Unit) × UnixDatagram × Sys :=
  if !d.connected then
    (some (.error (.invalidInput "must call connect() before calling send()")), d, s)
  else
    match retrySys .sendSys fuel s with
    | (none, s1) => (none, d, s1)
    | (some (ret, _), s1) =>
      if ret = -1 then (some (.error (.osError s1.errno)), d, s1)
      else if usizeOfInt ret ≠ buf.length then
        (some (.error (.invalidInput "couldn\x27t send entire packet at once")), d, s1)
      else (some (.ok ()), d, s1)

/-- Embedding of `UnixDatagram::sendto`: CString conversion of the
destination, the address codec, then the retry-wrapped libc::sendto with
the same short-send policy as `send`.  No connected-flag gate. -/
def UnixDatagram.sendto (d : UnixDatagram) (buf : List Nat) (dst : List Nat)
    (fuel : Nat) (s : Sys) :
    Option (Except IOErr Unit) × UnixDatagram × Sys :=
  match cstringNew dst with
  | .error e => (some (.error e), d, s)
  | .ok c_dst =>
    match addr_to_sockaddr_un c_dst with
    | .error e => (some (.error e), d, s)
    | .ok _ =>
      match retrySys .sendtoSys fuel s with
      | (none, s1) => (none, d, s1)
      | (some (ret, _), s1) =>
        if ret = -1 then (some (.error (.osError s1.errno)), d, s1)
        else if usizeOfInt ret ≠ buf.length then
          (some (.error (.invalidInput "couldn\x27t send entire packet at once")), d, s1)
        else (some (.ok ()), d, s1)

/-! ## Helper lemmas -/

/-- Copying into a zero buffer at least as long as the source yields the
i8-cast source followed by the remaining zeros. -/
theorem copyInto_replicate_zero (l : List Nat) :
    ∀ n : Nat, l.length ≤ n →
      copyInto (List.replicate n 0) l =
        l.map i8ofU8 ++ List.replicate (n - l.length) 0 := by
  induction l with
  | nil =>
    intro n h
    cases n with
    | zero => rfl
    | succ m => simp [copyInto, List.replicate_succ]
  | cons a l ih =>
    intro n h
    cases n with
    | zero => simp at h
    | succ m =>
      rw [List.replicate_succ]
      show i8ofU8 a :: copyInto (List.replicate m 0) l = _
      rw [ih m (by simpa using h)]
      simp [Nat.succ_sub_succ]

/-- The i8 cast of a byte keeps its bit pattern: reinterpreting the
signed value back as a byte recovers the byte. -/
theorem u8ofI8_i8ofU8 (b : Nat) (hb : b < 256) : u8ofI8 (i8ofU8 b) = b := by
  unfold u8ofI8 i8ofU8
  split <;> omega

/-- On values in the c_int range, the usize cast is injective against a
buffer length below 2^31: it equals the length exactly when the c_int
value does. -/
theorem usizeOfInt_eq_iff (ret : Int) (N : Nat)
    (h1 : -(2147483648 : Int) ≤ ret) (h2 : ret < 2147483648)
    (hN : (N : Int) < 2147483648) :
    usizeOfInt ret = N ↔ ret = (N : Int) := by
  unfold usizeOfInt
  omega

/-- A raw syscall appends exactly its own event to the trace. -/
theorem rawSyscall_trace (ev : SyscallEv) (s : Sys) :
    ((rawSyscall ev s).2).trace = s.trace ++ [ev] := by
  unfold rawSyscall
  split <;> rfl

/-- The retry wrapper only ever appends to the trace. -/
theorem retrySys_trace (ev : SyscallEv) :
    ∀ (fuel : Nat) (s : Sys),
      ∃ ext, ((retrySys ev fuel s).2).trace = s.trace ++ ext := by
  intro fuel
  induction fuel with
  | zero => intro s; exact ⟨[], by simp [retrySys]⟩
  | succ n ih =>
    intro s
    obtain ⟨ext, hext⟩ := ih (rawSyscall ev s).2
    by_cases h : ((rawSyscall ev s).1).1 = -1 ∧ s.errno = EINTR
    · refine ⟨ev :: ext, ?_⟩
      show ((retrySys ev (n + 1) s).2).trace = _
      rw [show (retrySys ev (n + 1) s) = retrySys ev n (rawSyscall ev s).2 from by
        simp [retrySys, h]]
      rw [hext, rawSyscall_trace]
      simp
    · refine ⟨[ev], ?_⟩
      show ((retrySys ev (n + 1) s).2).trace = _
      rw [show (retrySys ev (n + 1) s)
            = (some (rawSyscall ev s).1, (rawSyscall ev s).2) from by
        simp only [retrySys, if_neg h]]
      exact rawSyscall_trace ev s

/-- With at least one unit of fuel, the retry wrapper issues its syscall:
the first event it appends to the trace is its own. -/
theorem retrySys_trace_head (ev : SyscallEv) (fuel : Nat) (s : Sys)
    (h : 1 ≤ fuel) :
    ∃ ext, ((retrySys ev fuel s).2).trace = s.trace ++ ev :: ext := by
  obtain ⟨n, rfl⟩ : ∃ n, fuel = n + 1 := ⟨fuel - 1, by omega⟩
  by_cases hc : ((rawSyscall ev s).1).1 = -1 ∧ s.errno = EINTR
  · obtain ⟨ext, hext⟩ := retrySys_trace ev n (rawSyscall ev s).2
    refine ⟨ext, ?_⟩
    show ((retrySys ev (n + 1) s).2).trace = _
    rw [show (retrySys ev (n + 1) s) = retrySys ev n (rawSyscall ev s).2 from by
      simp [retrySys, hc]]
    rw [hext, rawSyscall_trace]
    simp
  · refine ⟨[], ?_⟩
    show ((retrySys ev (n + 1) s).2).trace = _
    rw [show (retrySys ev (n + 1) s)
          = (some (rawSyscall ev s).1, (rawSyscall ev s).2) from by
      simp only [retrySys, if_neg hc]]
    rw [rawSyscall_trace]

/-! ## Claim theorems -/

/-- Claim C1 (code bug).  The claim says the retry wrapper retries exactly
when the operation returns -1 with EINTR observed atomically with that
return, and that an operation failing with EINTR exactly twice before
succeeding makes it return the success value after exactly two retries.
The source `retry` instead reads errno BEFORE invoking the operation, so
on the spec scenario (ambient errno 0 on entry) it checks the stale value
0 against EINTR and passes the first -1 straight through: it returns
(-1, 0 retries), while the wrapper specified in the spec (`retrySpec`,
reading errno atomically with the call) returns (7, 2 retries). -/
theorem retry_stale_errno_bug :
    retry (eintrStub 7) 10 0 0 = some (-1, 0) ∧
    retrySpec (eintrStub 7) 10 0 = some (7, 2) := by
  constructor <;> rfl

/-- Claim C2.  For every NUL-free path of byte length L at most
capacity - 1 = 107, encoding succeeds: the family field is the AF_UNIX
tag, the L path bytes are copied verbatim (as i8 bit casts, inverted by
`u8ofI8`) and are followed by the zeros of the zero-initialised buffer,
and the returned effective length is tag size + L + 1. -/
theorem addr_to_sockaddr_un_success (path : List Nat)
    (hnul : 0 ∉ path) (hbytes : ∀ b ∈ path, b < 256)
    (hlen : path.length ≤ sunPathLen - 1) :
    addr_to_sockaddr_un path =
      .ok ({ sun_family := AF_UNIX,
             sun_path := path.map i8ofU8
               ++ List.replicate (sunPathLen - path.length) 0 },
           saFamilySize + path.length + 1) ∧
    (path.map i8ofU8).map u8ofI8 = path := by
  constructor
  · unfold addr_to_sockaddr_un
    rw [if_neg (by simp only [sunPathLen] at hlen ⊢; omega)]
    rw [copyInto_replicate_zero path sunPathLen
      (by simp only [sunPathLen] at hlen ⊢; omega)]
  · rw [List.map_map]
    conv_rhs => rw [show path = path.map id from (List.map_id path).symm]
    exact List.map_congr_left fun b hb => u8ofI8_i8ofU8 b (hbytes b hb)

/-- Witness for C2 at the concrete path [97, 98]. -/
theorem addr_to_sockaddr_un_success_witness :
    0 ∉ ([97, 98] : List Nat) ∧ (∀ b ∈ ([97, 98] : List Nat), b < 256) ∧
    ([97, 98] : List Nat).length ≤ sunPathLen - 1 ∧
    (addr_to_sockaddr_un [97, 98] =
      .ok ({ sun_family := AF_UNIX,
             sun_path := ([97, 98] : List Nat).map i8ofU8
               ++ List.replicate (sunPathLen - ([97, 98] : List Nat).length) 0 },
           saFamilySize + ([97, 98] : List Nat).length + 1) ∧
     (([97, 98] : List Nat).map i8ofU8).map u8ofI8 = [97, 98]) :=
  ⟨by decide, by decide, by decide,
   addr_to_sockaddr_un_success [97, 98] (by decide) (by decide) (by decide)⟩

/-- Claim C3.  Every path of byte length at least the capacity 108 makes
the encoding fail with the InvalidInput "path too long" error, and the
failing operation (connect, bind or sendto) returns that error with the
oracle state unchanged: its trace does not grow, so no OS call was issued
before the rejection. -/
theorem path_too_long_rejected (path : List Nat) (ty : SockType) (fuel : Nat)
    (s : Sys) (d : UnixDatagram) (buf : List Nat)
    (hlen : sunPathLen ≤ path.length) (hnul : 0 ∉ path) :
    addr_to_sockaddr_un path =
      .error (.invalidInput "path must be smaller than SUN_LEN") ∧
    UnixDatagram.connect path ty fuel s =
      (some (.error (.invalidInput "path must be smaller than SUN_LEN")), s) ∧
    UnixDatagram.bind path ty s =
      (.error (.invalidInput "path must be smaller than SUN_LEN"), s) ∧
    UnixDatagram.sendto d buf path fuel s =
      (some (.error (.invalidInput "path must be smaller than SUN_LEN")), d, s) := by
  have henc : addr_to_sockaddr_un path =
      .error (.invalidInput "path must be smaller than SUN_LEN") := by
    unfold addr_to_sockaddr_un
    rw [if_pos (by simp only [sunPathLen] at hlen ⊢; omega)]
  have hcs : cstringNew path = .ok path := by simp [cstringNew, hnul]
  refine ⟨henc, ?_, ?_, ?_⟩ <;>
    simp [UnixDatagram.connect, UnixDatagram.bind, UnixDatagram.sendto,
      connectFd, bindFd, hcs, henc]

/-- Witness for C3 at a concrete 108-byte path and a concrete oracle. -/
theorem path_too_long_rejected_witness :
    sunPathLen ≤ (List.replicate 108 97 : List Nat).length ∧
    0 ∉ (List.replicate 108 97 : List Nat) ∧
    (addr_to_sockaddr_un (List.replicate 108 97) =
      .error (.invalidInput "path must be smaller than SUN_LEN") ∧
     UnixDatagram.connect (List.replicate 108 97) .dgram 1 ⟨0, [], []⟩ =
      (some (.error (.invalidInput "path must be smaller than SUN_LEN")),
        ⟨0, [], []⟩) ∧
     UnixDatagram.bind (List.replicate 108 97) .dgram ⟨0, [], []⟩ =
      (.error (.invalidInput "path must be smaller than SUN_LEN"),
        ⟨0, [], []⟩) ∧
     UnixDatagram.sendto ⟨3, true⟩ [1] (List.replicate 108 97) 1 ⟨0, [], []⟩ =
      (some (.error (.invalidInput "path must be smaller than SUN_LEN")),
        ⟨3, true⟩, ⟨0, [], []⟩)) :=
  ⟨by decide, by decide,
   path_too_long_rejected (List.replicate 108 97) .dgram 1 ⟨0, [], []⟩
     ⟨3, true⟩ [1] (by decide) (by decide)⟩

/-- Claim C4.  Every path containing an embedded NUL byte makes connect,
bind and sendto fail with the InvalidInput error of the CString
conversion, with the oracle state unchanged (no syscall issued).  The
theorem holds for all such paths, in particular for paths that are also
at least 108 bytes long, and the returned message is the NUL one rather
than the "path too long" one: the NUL rejection precedes the length
check. -/
theorem nul_byte_rejected_first (path : List Nat) (ty : SockType) (fuel : Nat)
    (s : Sys) (d : UnixDatagram) (buf : List Nat) (hnul : 0 ∈ path) :
    UnixDatagram.connect path ty fuel s =
      (some (.error (.invalidInput "data provided contains a nul byte")), s) ∧
    UnixDatagram.bind path ty s =
      (.error (.invalidInput "data provided contains a nul byte"), s) ∧
    UnixDatagram.sendto d buf path fuel s =
      (some (.error (.invalidInput "data provided contains a nul byte")), d, s) := by
  have hcs : cstringNew path =
      .error (.invalidInput "data provided contains a nul byte") := by
    simp [cstringNew, hnul]
  refine ⟨?_, ?_, ?_⟩ <;>
    simp [UnixDatagram.connect, UnixDatagram.bind, UnixDatagram.sendto, hcs]

/-- Witness for C4 at a concrete path that both contains a NUL byte and
exceeds the capacity (120 bytes), showing the NUL error wins. -/
theorem nul_byte_rejected_first_witness :
    0 ∈ (0 :: List.replicate 119 97 : List Nat) ∧
    108 ≤ (0 :: List.replicate 119 97 : List Nat).length ∧
    (UnixDatagram.connect (0 :: List.replicate 119 97) .dgram 1 ⟨0, [], []⟩ =
      (some (.error (.invalidInput "data provided contains a nul byte")),
        ⟨0, [], []⟩) ∧
     UnixDatagram.bind (0 :: List.replicate 119 97) .dgram ⟨0, [], []⟩ =
      (.error (.invalidInput "data provided contains a nul byte"),
        ⟨0, [], []⟩) ∧
     UnixDatagram.sendto ⟨3, true⟩ [1] (0 :: List.replicate 119 97) 1 ⟨0, [], []⟩ =
      (some (.error (.invalidInput "data provided contains a nul byte")),
        ⟨3, true⟩, ⟨0, [], []⟩)) :=
  ⟨by decide, by decide,
   nul_byte_rejected_first (0 :: List.replicate 119 97) .dgram 1 ⟨0, [], []⟩
     ⟨3, true⟩ [1] (by decide)⟩

/-- Claim C5.  On an endpoint with connected = false (the bind-produced
state), recv and send always fail with their InvalidInput errors,
whatever the buffer, the fuel and the oracle state. -/
theorem recv_send_require_connected (d : UnixDatagram) (buf : List Nat)
    (fuel : Nat) (s : Sys) (h : d.connected = false) :
    (UnixDatagram.recv d buf fuel s).1 =
      some (.error (.invalidInput "must call connect() before calling recv()")) ∧
    (UnixDatagram.send d buf fuel s).1 =
      some (.error (.invalidInput "must call connect() before calling send()")) := by
  constructor <;> simp [UnixDatagram.recv, UnixDatagram.send, h]

/-- Witness for C5 at a concrete bound endpoint. -/
theorem recv_send_require_connected_witness :
    (⟨3, false⟩ : UnixDatagram).connected = false ∧
    ((UnixDatagram.recv ⟨3, false⟩ [1, 2] 1 ⟨0, [], []⟩).1 =
      some (.error (.invalidInput "must call connect() before calling recv()")) ∧
     (UnixDatagram.send ⟨3, false⟩ [1, 2] 1 ⟨0, [], []⟩).1 =
      some (.error (.invalidInput "must call connect() before calling send()"))) :=
  ⟨by decide, recv_send_require_connected ⟨3, false⟩ [1, 2] 1 ⟨0, [], []⟩ rfl⟩

/-- Opening the raw socket appends exactly the socket event to the trace. -/
theorem unix_socket_trace (ty : Int) (s : Sys) :
    ((unix_socket ty s).2).trace = s.trace ++ [.socket] := by
  unfold unix_socket
  split <;> exact rawSyscall_trace .socket s

/-- Claim C6.  With the wrapped syscall reporting that it accepted `ret`
bytes (`ret` in the c_int range, the buffer length below 2^31), send on a
connected endpoint and sendto return Ok exactly when `ret` equals the
buffer length; -1 yields the OS error, and a non-negative count different
from the buffer length yields the short-send InvalidInput error.  In every
case the oracle state is exactly the one the single wrapped call produced:
a short send is a hard error, never retried or completed by further
syscalls. -/
theorem send_sendto_exact_length
    (d : UnixDatagram) (buf dst data dataB : List Nat) (fuel fuelB : Nat)
    (s sB s1 s3 : Sys) (ret retB : Int)
    (hconn : d.connected = true)
    (hs : retrySys .sendSys fuel s = (some (ret, data), s1))
    (hr1 : -(2147483648 : Int) ≤ ret) (hr2 : ret < 2147483648)
    (hb : (buf.length : Int) < 2147483648)
    (hdnul : 0 ∉ dst) (hdlen : dst.length ≤ sunPathLen - 1)
    (hsB : retrySys .sendtoSys fuelB sB = (some (retB, dataB), s3))
    (hr3 : -(2147483648 : Int) ≤ retB) (hr4 : retB < 2147483648) :
    ((UnixDatagram.send d buf fuel s).1 = some (.ok ()) ↔ ret = (buf.length : Int)) ∧
    (ret = -1 →
      UnixDatagram.send d buf fuel s = (some (.error (.osError s1.errno)), d, s1)) ∧
    (0 ≤ ret → ret ≠ (buf.length : Int) →
      UnixDatagram.send d buf fuel s =
        (some (.error (.invalidInput "couldn\x27t send entire packet at once")), d, s1)) ∧
    (UnixDatagram.send d buf fuel s).2.2 = s1 ∧
    ((UnixDatagram.sendto d buf dst fuelB sB).1 = some (.ok ())
        ↔ retB = (buf.length : Int)) ∧
    (retB = -1 →
      UnixDatagram.sendto d buf dst fuelB sB =
        (some (.error (.osError s3.errno)), d, s3)) ∧
    (0 ≤ retB → retB ≠ (buf.length : Int) →
      UnixDatagram.sendto d buf dst fuelB sB =
        (some (.error (.invalidInput "couldn\x27t send entire packet at once")), d, s3)) ∧
    (UnixDatagram.sendto d buf dst fuelB sB).2.2 = s3 := by
  have key : usizeOfInt ret = buf.length ↔ ret = (buf.length : Int) :=
    usizeOfInt_eq_iff ret buf.length hr1 hr2 hb
  have keyB : usizeOfInt retB = buf.length ↔ retB = (buf.length : Int) :=
    usizeOfInt_eq_iff retB buf.length hr3 hr4 hb
  have hcs : cstringNew dst = .ok dst := by simp [cstringNew, hdnul]
  have henc : addr_to_sockaddr_un dst =
      .ok ({ sun_family := AF_UNIX,
             sun_path := copyInto (List.replicate sunPathLen 0) dst },
           saFamilySize + dst.length + 1) := by
    unfold addr_to_sockaddr_un
    rw [if_neg (by simp only [sunPathLen] at hdlen ⊢; omega)]
  have hmaster : UnixDatagram.send d buf fuel s =
      if ret = -1 then (some (.error (.osError s1.errno)), d, s1)
      else if usizeOfInt ret ≠ buf.length then
        (some (.error (.invalidInput "couldn\x27t send entire packet at once")), d, s1)
      else (some (.ok ()), d, s1) := by
    simp [UnixDatagram.send, hconn, hs]
  have hmasterB : UnixDatagram.sendto d buf dst fuelB sB =
      if retB = -1 then (some (.error (.osError s3.errno)), d, s3)
      else if usizeOfInt retB ≠ buf.length then
        (some (.error (.invalidInput "couldn\x27t send entire packet at once")), d, s3)
      else (some (.ok ()), d, s3) := by
    simp [UnixDatagram.sendto, hcs, henc, hsB]
  refine ⟨?_, ?_, ?_, ?_, ?_, ?_, ?_, ?_⟩
  · rw [hmaster]
    split_ifs with h1 h2
    · constructor
      · intro hx; simp at hx
      · intro hx; omega
    · constructor
      · intro hx; simp at hx
      · intro hx; exact absurd (key.mpr hx) h2
    · simp [key.mp (not_ne_iff.mp h2)]
  · intro h; rw [hmaster, if_pos h]
  · intro hge hne
    rw [hmaster, if_neg (by omega), if_pos (fun hEq => hne (key.mp hEq))]
  · rw [hmaster]; split_ifs <;> rfl
  · rw [hmasterB]
    split_ifs with h1 h2
    · constructor
      · intro hx; simp at hx
      · intro hx; omega
    · constructor
      · intro hx; simp at hx
      · intro hx; exact absurd (keyB.mpr hx) h2
    · simp [keyB.mp (not_ne_iff.mp h2)]
  · intro h; rw [hmasterB, if_pos h]
  · intro hge hne
    rw [hmasterB, if_neg (by omega), if_pos (fun hEq => hne (keyB.mp hEq))]
  · rw [hmasterB]; split_ifs <;> rfl

/-- Witness for C6: a connected endpoint sending a 3-byte buffer whose
wrapped syscall accepts all 3 bytes, and a sendto whose wrapped syscall
accepts only 2 of the 3 bytes (a short send). -/
theorem send_sendto_exact_length_witness :
    (⟨3, true⟩ : UnixDatagram).connected = true ∧
    retrySys .sendSys 1 ⟨0, [(3, 0, [])], []⟩ =
      (some (3, []), ⟨0, [], [.sendSys]⟩) ∧
    retrySys .sendtoSys 1 ⟨0, [(2, 0, [])], []⟩ =
      (some (2, []), ⟨0, [], [.sendtoSys]⟩) ∧
    (((UnixDatagram.send ⟨3, true⟩ [97, 98, 99] 1 ⟨0, [(3, 0, [])], []⟩).1 =
        some (.ok ()) ↔ (3 : Int) = (([97, 98, 99] : List Nat).length : Int)) ∧
     ((3 : Int) = -1 →
       UnixDatagram.send ⟨3, true⟩ [97, 98, 99] 1 ⟨0, [(3, 0, [])], []⟩ =
         (some (.error (.osError (⟨0, [], [.sendSys]⟩ : Sys).errno)),
           ⟨3, true⟩, ⟨0, [], [.sendSys]⟩)) ∧
     ((0 : Int) ≤ 3 → (3 : Int) ≠ (([97, 98, 99] : List Nat).length : Int) →
       UnixDatagram.send ⟨3, true⟩ [97, 98, 99] 1 ⟨0, [(3, 0, [])], []⟩ =
         (some (.error (.invalidInput "couldn\x27t send entire packet at once")),
           ⟨3, true⟩, ⟨0, [], [.sendSys]⟩)) ∧
     (UnixDatagram.send ⟨3, true⟩ [97, 98, 99] 1 ⟨0, [(3, 0, [])], []⟩).2.2 =
       ⟨0, [], [.sendSys]⟩ ∧
     ((UnixDatagram.sendto ⟨3, true⟩ [97, 98, 99] [100] 1 ⟨0, [(2, 0, [])], []⟩).1 =
        some (.ok ()) ↔ (2 : Int) = (([97, 98, 99] : List Nat).length : Int)) ∧
     ((2 : Int) = -1 →
       UnixDatagram.sendto ⟨3, true⟩ [97, 98, 99] [100] 1 ⟨0, [(2, 0, [])], []⟩ =
         (some (.error (.osError (⟨0, [], [.sendtoSys]⟩ : Sys).errno)),
           ⟨3, true⟩, ⟨0, [], [.sendtoSys]⟩)) ∧
     ((0 : Int) ≤ 2 → (2 : Int) ≠ (([97, 98, 99] : List Nat).length : Int) →
       UnixDatagram.sendto ⟨3, true⟩ [97, 98, 99] [100] 1 ⟨0, [(2, 0, [])], []⟩ =
         (some (.error (.invalidInput "couldn\x27t send entire packet at once")),
           ⟨3, true⟩, ⟨0, [], [.sendtoSys]⟩)) ∧
     (UnixDatagram.sendto ⟨3, true⟩ [97, 98, 99] [100] 1 ⟨0, [(2, 0, [])], []⟩).2.2 =
       ⟨0, [], [.sendtoSys]⟩) :=
  ⟨rfl, rfl, rfl,
   send_sendto_exact_length ⟨3, true⟩ [97, 98, 99] [100] [] [] 1 1
     ⟨0, [(3, 0, [])], []⟩ ⟨0, [(2, 0, [])], []⟩ ⟨0, [], [.sendSys]⟩
     ⟨0, [], [.sendtoSys]⟩ 3 2
     rfl rfl (by decide) (by decide) (by decide) (by decide) (by decide)
     rfl (by decide) (by decide)⟩

/-- Claim C7.  A successfully constructed endpoint has connected = true
exactly when it came from connect and connected = false exactly when it
came from bind, and none of the four I/O operations ever returns a
modified endpoint: the flag never transitions after construction. -/
theorem connected_flag_construction_invariant
    (pc pb : List Nat) (tyc tyb : SockType) (fuel : Nat) (sc sb : Sys)
    (dc db d : UnixDatagram) (buf dst : List Nat) (fuelB : Nat) (s : Sys)
    (hc : (UnixDatagram.connect pc tyc fuel sc).1 = some (.ok dc))
    (hb : (UnixDatagram.bind pb tyb sb).1 = .ok db) :
    dc.connected = true ∧ db.connected = false ∧
    (UnixDatagram.recv d buf fuelB s).2.2.1 = d ∧
    (UnixDatagram.recvfrom d buf fuelB s).2.2.1 = d ∧
    (UnixDatagram.send d buf fuelB s).2.1 = d ∧
    (UnixDatagram.sendto d buf dst fuelB s).2.1 = d := by
  refine ⟨?_, ?_, ?_, ?_, ?_, ?_⟩
  · unfold UnixDatagram.connect at hc
    split at hc
    · simp at hc
    · split at hc
      · simp at hc
      · simp at hc
      · simp at hc
        rw [← hc]
  · unfold UnixDatagram.bind at hb
    split at hb
    · simp at hb
    · split at hb
      · simp at hb
      · simp at hb
        rw [← hb]
  · unfold UnixDatagram.recv
    split
    · rfl
    · split
      · rfl
      · split <;> rfl
  · unfold UnixDatagram.recvfrom
    split
    · rfl
    · split <;> rfl
  · unfold UnixDatagram.send
    split
    · rfl
    · split
      · rfl
      · split
        · rfl
        · split <;> rfl
  · unfold UnixDatagram.sendto
    split
    · rfl
    · split
      · rfl
      · split
        · rfl
        · split
          · rfl
          · split <;> rfl

/-- Witness for C7: a concrete successful connect and a concrete
successful bind (socket fd 3, then a 0 return from the wrapped call),
plus a concrete endpoint threaded unchanged through the four operations. -/
theorem connected_flag_construction_invariant_witness :
    (UnixDatagram.connect [97] .dgram 1 ⟨0, [(3, 0, []), (0, 0, [])], []⟩).1 =
      some (.ok ⟨3, true⟩) ∧
    (UnixDatagram.bind [97] .dgram ⟨0, [(3, 0, []), (0, 0, [])], []⟩).1 =
      .ok ⟨3, false⟩ ∧
    ((⟨3, true⟩ : UnixDatagram).connected = true ∧
     (⟨3, false⟩ : UnixDatagram).connected = false ∧
     (UnixDatagram.recv ⟨7, true⟩ [1] 1 ⟨0, [], []⟩).2.2.1 = ⟨7, true⟩ ∧
     (UnixDatagram.recvfrom ⟨7, true⟩ [1] 1 ⟨0, [], []⟩).2.2.1 = ⟨7, true⟩ ∧
     (UnixDatagram.send ⟨7, true⟩ [1] 1 ⟨0, [], []⟩).2.1 = ⟨7, true⟩ ∧
     (UnixDatagram.sendto ⟨7, true⟩ [1] [97] 1 ⟨0, [], []⟩).2.1 = ⟨7, true⟩) :=
  ⟨rfl, rfl,
   connected_flag_construction_invariant [97] [97] .dgram .dgram 1
     ⟨0, [(3, 0, []), (0, 0, [])], []⟩ ⟨0, [(3, 0, []), (0, 0, [])], []⟩
     ⟨3, true⟩ ⟨3, false⟩ ⟨7, true⟩ [1] [97] 1 ⟨0, [], []⟩ rfl rfl⟩

/-- Claim C8.  recvfrom performs no connected-flag check: its result, the
rewritten buffer and the final oracle state are the same whatever the
flag; and when the wrapped syscall delivers a non-negative byte count it
returns exactly that count (as usize) and nothing else — the sender
address the kernel decoded is discarded, as the result type shows. -/
theorem recvfrom_ignores_connected_flag
    (fd : Int) (c1 c2 : Bool) (buf data : List Nat) (fuel : Nat)
    (s s1 : Sys) (ret : Int)
    (hs : retrySys .recvfromSys fuel s = (some (ret, data), s1))
    (hret : 0 ≤ ret) :
    UnixDatagram.recvfrom ⟨fd, c1⟩ buf fuel s =
      (some (.ok (usizeOfInt ret)), overwrite buf data, ⟨fd, c1⟩, s1) ∧
    (UnixDatagram.recvfrom ⟨fd, c1⟩ buf fuel s).1 =
      (UnixDatagram.recvfrom ⟨fd, c2⟩ buf fuel s).1 ∧
    (UnixDatagram.recvfrom ⟨fd, c1⟩ buf fuel s).2.1 =
      (UnixDatagram.recvfrom ⟨fd, c2⟩ buf fuel s).2.1 ∧
    (UnixDatagram.recvfrom ⟨fd, c1⟩ buf fuel s).2.2.2 =
      (UnixDatagram.recvfrom ⟨fd, c2⟩ buf fuel s).2.2.2 := by
  have hall : ∀ c : Bool, UnixDatagram.recvfrom ⟨fd, c⟩ buf fuel s =
      (some (.ok (usizeOfInt ret)), overwrite buf data, ⟨fd, c⟩, s1) := by
    intro c
    simp [UnixDatagram.recvfrom, hs, Int.not_lt.mpr hret]
  exact ⟨hall c1, by rw [hall c1, hall c2], by rw [hall c1, hall c2],
    by rw [hall c1, hall c2]⟩

/-- Witness for C8: a 2-byte datagram delivered into a 3-byte buffer on
endpoints with either flag value. -/
theorem recvfrom_ignores_connected_flag_witness :
    retrySys .recvfromSys 1 ⟨0, [(2, 0, [9, 9])], []⟩ =
      (some (2, [9, 9]), ⟨0, [], [.recvfromSys]⟩) ∧
    (0 : Int) ≤ 2 ∧
    (UnixDatagram.recvfrom ⟨3, false⟩ [5, 5, 5] 1 ⟨0, [(2, 0, [9, 9])], []⟩ =
      (some (.ok (usizeOfInt 2)), overwrite [5, 5, 5] [9, 9], ⟨3, false⟩,
        ⟨0, [], [.recvfromSys]⟩) ∧
     (UnixDatagram.recvfrom ⟨3, false⟩ [5, 5, 5] 1 ⟨0, [(2, 0, [9, 9])], []⟩).1 =
      (UnixDatagram.recvfrom ⟨3, true⟩ [5, 5, 5] 1 ⟨0, [(2, 0, [9, 9])], []⟩).1 ∧
     (UnixDatagram.recvfrom ⟨3, false⟩ [5, 5, 5] 1 ⟨0, [(2, 0, [9, 9])], []⟩).2.1 =
      (UnixDatagram.recvfrom ⟨3, true⟩ [5, 5, 5] 1 ⟨0, [(2, 0, [9, 9])], []⟩).2.1 ∧
     (UnixDatagram.recvfrom ⟨3, false⟩ [5, 5, 5] 1 ⟨0, [(2, 0, [9, 9])], []⟩).2.2.2 =
      (UnixDatagram.recvfrom ⟨3, true⟩ [5, 5, 5] 1 ⟨0, [(2, 0, [9, 9])], []⟩).2.2.2) :=
  ⟨rfl, by decide,
   recvfrom_ignores_connected_flag 3 false true [5, 5, 5] [9, 9] 1
     ⟨0, [(2, 0, [9, 9])], []⟩ ⟨0, [], [.recvfromSys]⟩ 2 rfl (by decide)⟩

/-- Claim C9.  On an endpoint with connected = false, recv and send fail
atomically: the exact result is the InvalidInput error together with the
untouched buffer, endpoint and oracle state (unchanged trace: the retry
wrapper was never invoked and no syscall issued), and the result of send
does not depend on the buffer at all. -/
theorem unconnected_error_path_atomic
    (d : UnixDatagram) (buf bufB : List Nat) (fuel : Nat) (s : Sys)
    (h : d.connected = false) :
    UnixDatagram.recv d buf fuel s =
      (some (.error (.invalidInput "must call connect() before calling recv()")),
        buf, d, s) ∧
    UnixDatagram.send d buf fuel s =
      (some (.error (.invalidInput "must call connect() before calling send()")),
        d, s) ∧
    UnixDatagram.send d buf fuel s = UnixDatagram.send d bufB fuel s := by
  refine ⟨?_, ?_, ?_⟩ <;> simp [UnixDatagram.recv, UnixDatagram.send, h]

/-- Witness for C9 at a concrete bound endpoint, a non-empty oracle
script (which stays unconsumed) and two different buffers. -/
theorem unconnected_error_path_atomic_witness :
    (⟨3, false⟩ : UnixDatagram).connected = false ∧
    (UnixDatagram.recv ⟨3, false⟩ [1, 2] 1 ⟨0, [(9, 0, [])], []⟩ =
      (some (.error (.invalidInput "must call connect() before calling recv()")),
        [1, 2], ⟨3, false⟩, ⟨0, [(9, 0, [])], []⟩) ∧
     UnixDatagram.send ⟨3, false⟩ [1, 2] 1 ⟨0, [(9, 0, [])], []⟩ =
      (some (.error (.invalidInput "must call connect() before calling send()")),
        ⟨3, false⟩, ⟨0, [(9, 0, [])], []⟩) ∧
     UnixDatagram.send ⟨3, false⟩ [1, 2] 1 ⟨0, [(9, 0, [])], []⟩ =
      UnixDatagram.send ⟨3, false⟩ [7] 1 ⟨0, [(9, 0, [])], []⟩) :=
  ⟨rfl, unconnected_error_path_atomic ⟨3, false⟩ [1, 2] [7] 1
    ⟨0, [(9, 0, [])], []⟩ rfl⟩

/-- When encoding succeeds, the free connect issues the socket syscall
first: its trace extension starts with the socket event. -/
theorem connectFd_trace_head (addr : List Nat) (ty : Int) (fuel : Nat) (s : Sys)
    (x : SockaddrUn × Nat) (henc : addr_to_sockaddr_un addr = .ok x) :
    ∃ rest, ((connectFd addr ty fuel s).2).trace = s.trace ++ .socket :: rest := by
  unfold connectFd
  simp only [henc]
  rcases hu : unix_socket ty s with ⟨ur, s1⟩
  have hs1 : s1.trace = s.trace ++ [.socket] := by
    have h := unix_socket_trace ty s
    rw [hu] at h
    exact h
  cases ur with
  | error e =>
    refine ⟨[], ?_⟩
    simp only [hu]
    simpa using hs1
  | ok fd =>
    rcases hr : retrySys .connectSys fuel s1 with ⟨rr, s2⟩
    obtain ⟨ext, hext⟩ := retrySys_trace .connectSys fuel s1
    rw [hr] at hext
    have h2 : s2.trace = s.trace ++ .socket :: ext := by
      rw [hext, hs1]
      simp
    cases rr with
    | none =>
      refine ⟨ext, ?_⟩
      simp only [hu, hr]
      exact h2
    | some rd =>
      rcases rd with ⟨ret, dd⟩
      refine ⟨ext, ?_⟩
      simp only [hu, hr]
      split <;> exact h2

/-- When encoding succeeds, the free bind issues the socket syscall
first: its trace extension starts with the socket event. -/
theorem bindFd_trace_head (addr : List Nat) (ty : Int) (s : Sys)
    (x : SockaddrUn × Nat) (henc : addr_to_sockaddr_un addr = .ok x) :
    ∃ rest, ((bindFd addr ty s).2).trace = s.trace ++ .socket :: rest := by
  unfold bindFd
  simp only [henc]
  rcases hu : unix_socket ty s with ⟨ur, s1⟩
  have hs1 : s1.trace = s.trace ++ [.socket] := by
    have h := unix_socket_trace ty s
    rw [hu] at h
    exact h
  cases ur with
  | error e =>
    refine ⟨[], ?_⟩
    simp only [hu]
    simpa using hs1
  | ok fd =>
    refine ⟨[.bindSys], ?_⟩
    simp only [hu]
    have hbt : ((rawSyscall .bindSys s1).2).trace
        = s.trace ++ [.socket, .bindSys] := by
      rw [rawSyscall_trace, hs1]
      simp
    split <;> simpa using hbt

/-- The method wrapper around the free connect does not touch the oracle
state when the CString conversion succeeds. -/
theorem connect_sys_eq (addr : List Nat) (ty : SockType) (fuel : Nat) (s : Sys)
    (c : List Nat) (hcs : cstringNew addr = .ok c) :
    (UnixDatagram.connect addr ty fuel s).2 = (connectFd c ty.toC fuel s).2 := by
  unfold UnixDatagram.connect
  simp only [hcs]
  rcases h : connectFd c ty.toC fuel s with ⟨res, s1⟩
  cases res with
  | none => rfl
  | some r =>
    cases r with
    | error e => rfl
    | ok fd => rfl

/-- The method wrapper around the free bind does not touch the oracle
state when the CString conversion succeeds. -/
theorem bind_sys_eq (addr : List Nat) (ty : SockType) (s : Sys)
    (c : List Nat) (hcs : cstringNew addr = .ok c) :
    (UnixDatagram.bind addr ty s).2 = (bindFd c ty.toC s).2 := by
  unfold UnixDatagram.bind
  simp only [hcs]
  rcases h : bindFd c ty.toC s with ⟨res, s1⟩
  cases res with
  | error e => rfl
  | ok fd => rfl

/-- When both the CString conversion and the encoding succeed, sendto
issues its syscall: its trace extension starts with the sendto event. -/
theorem sendto_trace_head (d : UnixDatagram) (buf dst : List Nat) (fuel : Nat)
    (s : Sys) (c : List Nat) (x : SockaddrUn × Nat)
    (hcs : cstringNew dst = .ok c) (henc : addr_to_sockaddr_un c = .ok x)
    (hf : 1 ≤ fuel) :
    ∃ rest, ((UnixDatagram.sendto d buf dst fuel s).2.2).trace
      = s.trace ++ .sendtoSys :: rest := by
  unfold UnixDatagram.sendto
  simp only [hcs, henc]
  obtain ⟨ext, hext⟩ := retrySys_trace_head .sendtoSys fuel s hf
  rcases hr : retrySys .sendtoSys fuel s with ⟨rr, s1⟩
  rw [hr] at hext
  cases rr with
  | none =>
    refine ⟨ext, ?_⟩
    simp only [hr]
    exact hext
  | some rd =>
    rcases rd with ⟨ret, dd⟩
    refine ⟨ext, ?_⟩
    simp only [hr]
    split
    · exact hext
    · split <;> exact hext

/-- Claim C10.  The empty path is accepted by the encoding: it succeeds
with the AF_UNIX family, an all-zero path field and effective length
tag size + 1 = 3; consequently connect, bind and sendto with the empty
path reach the syscall stage (their trace gains the socket, socket, and
sendto events respectively) instead of failing with InvalidInput. -/
theorem empty_path_accepted
    (ty : SockType) (fuel : Nat) (s : Sys) (d : UnixDatagram) (buf : List Nat)
    (hf : 1 ≤ fuel) :
    addr_to_sockaddr_un [] =
      .ok ({ sun_family := AF_UNIX, sun_path := List.replicate sunPathLen 0 }, 3) ∧
    (∃ rest, ((UnixDatagram.connect [] ty fuel s).2).trace
        = s.trace ++ .socket :: rest) ∧
    (∃ rest, ((UnixDatagram.bind [] ty s).2).trace = s.trace ++ .socket :: rest) ∧
    (∃ rest, ((UnixDatagram.sendto d buf [] fuel s).2.2).trace
        = s.trace ++ .sendtoSys :: rest) := by
  have hcs : cstringNew [] = .ok [] := by simp [cstringNew]
  have henc : addr_to_sockaddr_un [] =
      .ok ({ sun_family := AF_UNIX, sun_path := List.replicate sunPathLen 0 }, 3) := by
    unfold addr_to_sockaddr_un
    rw [if_neg (by decide)]
    rw [copyInto_replicate_zero [] sunPathLen (by simp)]
    simp [saFamilySize]
  refine ⟨henc, ?_, ?_, ?_⟩
  · have h := connectFd_trace_head [] ty.toC fuel s _ henc
    rwa [← connect_sys_eq [] ty fuel s [] hcs] at h
  · have h := bindFd_trace_head [] ty.toC s _ henc
    rwa [← bind_sys_eq [] ty s [] hcs] at h
  · exact sendto_trace_head d buf [] fuel s [] _ hcs henc hf

/-- Witness for C10 at concrete arguments: fuel 1 and the empty oracle
script (the socket calls then fail, but only after being issued). -/
theorem empty_path_accepted_witness :
    (1 : Nat) ≤ 1 ∧
    (addr_to_sockaddr_un [] =
      .ok ({ sun_family := AF_UNIX, sun_path := List.replicate sunPathLen 0 }, 3) ∧
     (∃ rest, ((UnixDatagram.connect [] .dgram 1 ⟨0, [], []⟩).2).trace
        = (⟨0, [], []⟩ : Sys).trace ++ .socket :: rest) ∧
     (∃ rest, ((UnixDatagram.bind [] .dgram ⟨0, [], []⟩).2).trace
        = (⟨0, [], []⟩ : Sys).trace ++ .socket :: rest) ∧
     (∃ rest, ((UnixDatagram.sendto ⟨3, true⟩ [1] [] 1 ⟨0, [], []⟩).2.2).trace
        = (⟨0, [], []⟩ : Sys).trace ++ .sendtoSys :: rest)) :=
  ⟨by decide, empty_path_accepted .dgram 1 ⟨0, [], []⟩ ⟨3, true⟩ [1] (by decide)⟩
